import Mathlib

/-!
Verification of the container-fleet director (port pool, log pump,
state manager, dashboard placer) against its natural-language spec.
Each definition is a shallow embedding of the corresponding Python
function in `src/director/`.
-/

set_option maxHeartbeats 1000000

namespace Director

/-! ### Port pool (`DockerManager` in `docker_manager.py`)

`reserved_ports` is a Python `set`; `hold_ports` inserts each given port,
and `free_ports` — as written in the source — also *inserts* each given
port (`self.reserved_ports.add(port)`), it never removes anything. -/

/-- `DockerManager.hold_ports`: insert every port into `reserved_ports`. -/
def hold_ports (reserved : Finset ℕ) (ports : List ℕ) : Finset ℕ :=
  ports.foldl (fun acc p => insert p acc) reserved

/-- `DockerManager.free_ports` as written in the source: the loop body is
`self.reserved_ports.add(port)`, i.e. it *inserts* every port. -/
def free_ports (reserved : Finset ℕ) (ports : List ℕ) : Finset ℕ :=
  ports.foldl (fun acc p => insert p acc) reserved

/-- Reservation-set effect of one `run_container` attempt on the ports it
allocated: `hold_ports` at entry, `free_ports` in the `finally` block
(taken on success and on error alike). -/
def run_attempt_reserved (reserved : Finset ℕ) (allocated : List ℕ) : Finset ℕ :=
  free_ports (hold_ports reserved allocated) allocated

/-! ### Port allocation step of `run_container`

`allocated_ports = list(available_ports.pop() for p in service_img.ports)`:
one `set.pop` per declared container port.  A Python set iterates in an
arbitrary but fixed order, so the available set is embedded as a list and
`pop` takes its head; `pop` on an empty set raises `KeyError`. -/

/-- Python error kinds relevant to the allocation step. -/
inductive PyErr
  | keyError
  | resourceExhausted
  deriving DecidableEq, Repr

/-- The allocation loop of `run_container`: pop `k` ports from the
available set (embedded as a list); `set.pop` on an empty set raises
`KeyError`. -/
def allocate_ports : List ℕ → ℕ → Except PyErr (List ℕ)
  | _, 0 => .ok []
  | [], _ + 1 => .error .keyError
  | p :: rest, k + 1 => (allocate_ports rest k).map (fun l => p :: l)

/-! ### `DockerManager.containers` and `available_ports`

`containers(struct=dict, status=None, fullinfo=False, inband=True)` lists
engine containers with `all=True`, filtering by the `inband` label when
`inband` is true and by engine status only when a `status` argument is
given.  `available_ports` calls `containers()` with its defaults — no
status filter — and subtracts every listed container's ports and the
reserved set from `range(start_port, end_port)`. -/

/-- A container as reported by the engine listing: name, engine status,
whether it carries the `inband` label, and its bound host ports. -/
structure Cont where
  name : String
  status : String
  inband : Bool
  ports : List ℕ
  deriving DecidableEq, Repr

/-- `DockerManager.containers`: list with `all=True`, filtered by the
`inband` label when requested and by `status` when one is given. -/
def containers (world : List Cont) (inband : Bool) (status : Option String) : List Cont :=
  world.filter fun c =>
    (!inband || c.inband) && (match status with
      | none => true
      | some s => c.status == s)

/-- `DockerManager.available_ports`:
`set(range(start_port, end_port)) - used_ports - reserved_ports`, where
`used_ports` is the union of `cont.ports` over `self.containers()`
(default arguments: inband label filter on, **no** status filter). -/
def available_ports (world : List Cont) (start_port end_port : ℕ)
    (reserved : Finset ℕ) : Finset ℕ :=
  ((Finset.Ico start_port end_port) \
    ((containers world true none).flatMap (fun c => c.ports)).toFinset) \ reserved

/-- The spec's words for the same function (refinement comparison only):
`[start_port, end_port) \ ports_used_by_running_containers \ currently_reserved`,
excluding ports of *running* containers only. -/
def spec_available_ports (world : List Cont) (start_port end_port : ℕ)
    (reserved : Finset ℕ) : Finset ℕ :=
  ((Finset.Ico start_port end_port) \
    ((containers world true (some "running")).flatMap (fun c => c.ports)).toFinset) \ reserved

/-! ### Log pump (`DockerManager.logs_reader`)

Each message delivered by the log subscriber is one frame of the engine's
binary multiplex format.  The reader takes `source = mv[0]`,
`size = struct.unpack('>L', mv[4:8])[0]`,
`data = bytes(mv[8:]).decode('utf-8', 'replace')` and publishes the tuple
`(now, cid, name, source, size, data)`.  The decoder below embeds
CPython's UTF-8 decoder with the `replace` error handler: each maximal
subpart of an ill-formed sequence yields one U+FFFD and decoding resumes
at the next byte; it is total — it never raises. -/

/-- A UTF-8 continuation byte (`0x80..0xBF`). -/
def isCont (b : ℕ) : Bool := decide (0x80 ≤ b) && decide (b ≤ 0xBF)

/-- Decode one scalar value (or one replacement character) from the front
of a byte list, returning the character and the number of bytes consumed
(at least 1).  Lead-byte and first-continuation ranges follow the UTF-8
well-formedness table (no overlongs, no surrogates, max U+10FFFF), which
is what CPython enforces. -/
def utf8DecodeOne : List ℕ → Char × ℕ
  | [] => ('�', 1)
  | b :: rest =>
    if b < 0x80 then (Char.ofNat b, 1)
    else if 0xC2 ≤ b && b ≤ 0xDF then
      match rest with
      | c1 :: _ =>
        if isCont c1 then (Char.ofNat ((b - 0xC0) * 0x40 + (c1 - 0x80)), 2)
        else ('�', 1)
      | [] => ('�', 1)
    else if 0xE0 ≤ b && b ≤ 0xEF then
      let lo1 : ℕ := if b == 0xE0 then 0xA0 else 0x80
      let hi1 : ℕ := if b == 0xED then 0x9F else 0xBF
      match rest with
      | c1 :: c2 :: _ =>
        if lo1 ≤ c1 && c1 ≤ hi1 then
          if isCont c2 then
            (Char.ofNat ((b - 0xE0) * 0x1000 + (c1 - 0x80) * 0x40 + (c2 - 0x80)), 3)
          else ('�', 2)
        else ('�', 1)
      | [c1] =>
        if lo1 ≤ c1 && c1 ≤ hi1 then ('�', 2) else ('�', 1)
      | [] => ('�', 1)
    else if 0xF0 ≤ b && b ≤ 0xF4 then
      let lo1 : ℕ := if b == 0xF0 then 0x90 else 0x80
      let hi1 : ℕ := if b == 0xF4 then 0x8F else 0xBF
      match rest with
      | c1 :: c2 :: c3 :: _ =>
        if lo1 ≤ c1 && c1 ≤ hi1 then
          if isCont c2 then
            if isCont c3 then
              (Char.ofNat ((b - 0xF0) * 0x40000 + (c1 - 0x80) * 0x1000 +
                (c2 - 0x80) * 0x40 + (c3 - 0x80)), 4)
            else ('�', 3)
          else ('�', 2)
        else ('�', 1)
      | [c1, c2] =>
        if lo1 ≤ c1 && c1 ≤ hi1 then
          if isCont c2 then ('�', 3) else ('�', 2)
        else ('�', 1)
      | [c1] =>
        if lo1 ≤ c1 && c1 ≤ hi1 then ('�', 2) else ('�', 1)
      | [] => ('�', 1)
    else ('�', 1)

/-- Fuelled decoding loop: every step consumes at least one byte, so fuel
equal to the byte count never runs out. -/
def utf8DecodeReplaceAux : ℕ → List ℕ → List Char
  | 0, _ => []
  | _ + 1, [] => []
  | fuel + 1, b :: rest =>
    let step := utf8DecodeOne (b :: rest)
    step.1 :: utf8DecodeReplaceAux fuel (rest.drop (step.2 - 1))

/-- `bytes(...).decode('utf-8', 'replace')`: total UTF-8 decoding with
replacement of invalid sequences. -/
def utf8DecodeReplace (l : List ℕ) : List Char := utf8DecodeReplaceAux l.length l

/-- `struct.unpack('>L', mv[4:8])[0]`: big-endian 32-bit value of four
bytes. -/
def beU32 (b4 b5 b6 b7 : ℕ) : ℕ := ((b4 * 256 + b5) * 256 + b6) * 256 + b7

/-- One published log tuple `(now, cid, name, source, size, data)`. -/
structure LogMsg where
  ts : ℕ
  cid : String
  name : String
  source : ℕ
  size : ℕ
  data : List Char
  deriving DecidableEq, Repr

/-- The per-frame body of `logs_reader`: `mv = memoryview(log_record)`,
`source = mv[0]`, `size = struct.unpack('>L', mv[4:8])[0]`,
`data = bytes(mv[8:]).decode('utf-8', 'replace')`.  A record shorter than
the 8-byte header makes `struct.unpack` raise, embedded as `none`. -/
def parseLogRecord (now : ℕ) (cid name : String) (rec : List ℕ) : Option LogMsg :=
  if 8 ≤ rec.length then
    some { ts := now, cid := cid, name := name,
           source := rec.getD 0 0,
           size := beU32 (rec.getD 4 0) (rec.getD 5 0) (rec.getD 6 0) (rec.getD 7 0),
           data := utf8DecodeReplace (rec.drop 8) }
  else none

/-- `DockerManager.logs_reader`'s loop over the frames the subscriber
delivers: each frame is decoded and published in order; `clock i` is the
`int(time() * 1000)` taken for the `i`-th frame.  A raising frame tears
the reader down (no further publications). -/
def logs_reader (clock : ℕ → ℕ) (cid name : String) : ℕ → List (List ℕ) → List LogMsg
  | _, [] => []
  | i, r :: rs =>
    match parseLogRecord (clock i) cid name r with
    | some m => m :: logs_reader clock cid name (i + 1) rs
    | none => []

/-! ### Dashboard placer (`StateManager._allocate`, `_occupied`,
`_space_walk` in `state/manager.py`)

The manager's grid is `cols × rows` (both 6 in `__init__`; kept as
parameters).  `_space_walk(scol, srow)` yields `(coli, rowi)` first for
`rowi in range(srow, rows), coli in range(scol, cols)` and then for
`rowi in range(0, srow), coli in range(0, scol)`.  `_allocate` returns
the first yielded cell whose key `f"{icol}x{irow}"` is not in
`_occupied(exclude=name)`, and `None` if the walk is exhausted. -/

/-- The slice of a service record the placer reads: its name and its
(possibly absent) grid position components. -/
structure SvcPos where
  name : String
  posCol : Option ℕ
  posRow : Option ℕ
  deriving DecidableEq, Repr

/-- The cell key `f"{icol}x{irow}"` / `pos.to_s()`. -/
def posKey (c r : ℕ) : String := toString c ++ "x" ++ toString r

/-- `StateManager._occupied(exclude)`: keys of the positions of every
record other than `exclude` whose `pos.col` and `pos.row` are both
present. -/
def occupied (state : List SvcPos) (exclude : String) : List String :=
  state.filterMap fun srv =>
    if srv.name ≠ exclude then
      match srv.posCol, srv.posRow with
      | some c, some r => some (posKey c r)
      | _, _ => none
    else none

/-- `StateManager._space_walk(scol, srow)`: the first pass over
`range(srow, rows) × range(scol, cols)` (rows outer — row-major), then
the back side over `range(0, srow) × range(0, scol)`. -/
def space_walk (cols rows scol srow : ℕ) : List (ℕ × ℕ) :=
  ((List.range' srow (rows - srow)).flatMap fun r =>
    (List.range' scol (cols - scol)).map fun c => (c, r)) ++
  ((List.range srow).flatMap fun r =>
    (List.range scol).map fun c => (c, r))

/-- `StateManager._allocate(name, col, row)`: first walked cell whose key
is not occupied (occupancy excludes the record being placed); `None` when
the walk is exhausted. -/
def allocate (state : List SvcPos) (name : String) (cols rows col row : ℕ) :
    Option (ℕ × ℕ) :=
  (space_walk cols rows col row).find? fun p =>
    !(occupied state name).contains (posKey p.1 p.2)

/-- A fully blocking occupancy for the walk from `(1, 1)` on the 6×6
grid: every cell of `[1,6) × [1,6)` plus `(0,0)` is taken, while cells
such as `(0,1)` and `(1,0)` stay free. -/
def c10State : List SvcPos :=
  ⟨"svc0x0", some 0, some 0⟩ ::
  ((List.range' 1 5).flatMap fun r =>
    (List.range' 1 5).map fun c => ⟨"svc" ++ posKey c r, some c, some r⟩)

/-! ### Env layering in `StateManager.get`

For a name not yet in the service table, `get` collects `meta.env` and
`config.env` (each only when present and non-empty — an empty dict is
falsy); on every call it appends `params.env` when given; when the
collected list is non-empty it calls `svc.set_env(merge_dicts(*envs))`.
`merge_dicts` lives in `helpers.py` (not under `src/`).  Modelled from
the spec: later layers win (`later wins`), embedded as successive dict
update.  `ServiceState.set_env` is also outside `src/`; modelled from the
spec's record description as the plain env field setter — the merging is
visibly done at the call site in `get`. -/

/-- Python dict update of one key: replace in place if the key exists,
else append (insertion order preserved). -/
def envUpdate (e : List (String × String)) (k v : String) : List (String × String) :=
  if e.any (fun p => p.1 == k) then
    e.map (fun p => if p.1 == k then (k, v) else p)
  else e ++ [(k, v)]

/-- `d1.update(d2)`-style merge of two dicts, right side winning. -/
def dictUpdate (a b : List (String × String)) : List (String × String) :=
  b.foldl (fun acc p => envUpdate acc p.1 p.2) a

/-- `merge_dicts(*envs)`.  Modelled from the spec: merge the layers left
to right, later wins. -/
def merge_dicts (envs : List (List (String × String))) : List (String × String) :=
  envs.foldl dictUpdate []

/-- The env effect of one `StateManager.get(name, params)` call.
`present` is `name in self._state`; `prevEnv` the record's current env
(empty for a fresh record); `metaEnv`/`configEnv`/`paramsEnv` are `none`
when the corresponding dict is absent or empty (falsy).  Only a
record-creating call gathers the meta and config layers. -/
def get_env (present : Bool) (prevEnv : List (String × String))
    (metaEnv configEnv paramsEnv : Option (List (String × String))) :
    List (String × String) :=
  let envs : List (List (String × String)) :=
    (if present then [] else metaEnv.toList ++ configEnv.toList) ++ paramsEnv.toList
  if envs.isEmpty then prevEnv else merge_dicts envs

/-! ### Lifecycle status overrides (`run/stop/start/remove/restart_service`)

Each operation sets a status override at entry and delegates to its
`_do_*` coroutine; the `await`ed engine call can raise, and there is no
`try/finally` — `clean_status()` only runs on the lines after a
successful engine call.  Each operation is embedded as a function of
whether the engine call succeeds, returning the post-state of the
override and the success flag. -/

inductive Override
  | starting
  | stopping
  | restarting
  | removing
  deriving DecidableEq, Repr

structure SvcStatus where
  statusOverride : Option Override
  deriving DecidableEq, Repr

/-- `run_service`: `clean_status(); set_status_override(STARTING)`, then
`_do_run_service` whose `dock.run_container` may raise; on success the
trailing `resolve_docstatus` only touches `dockstate` (`resolveEff` keeps
that effect abstract; per the spec it does not clear the override). -/
def run_service (engineOk : Bool)
    (resolveEff : Option Override → Option Override) (_s : SvcStatus) :
    SvcStatus × Bool :=
  let s1 : SvcStatus := ⟨some .starting⟩
  if engineOk then (⟨resolveEff s1.statusOverride⟩, true) else (s1, false)

/-- `stop_service`: override STOPPING, `dock.stop_container`, then
`clean_status()` — reached only when the engine call returns. -/
def stop_service (engineOk : Bool) (_s : SvcStatus) : SvcStatus × Bool :=
  let s1 : SvcStatus := ⟨some .stopping⟩
  if engineOk then (⟨none⟩, true) else (s1, false)

/-- `start_service`: override STARTING, `dock.start_container`, then
`clean_status()`. -/
def start_service (engineOk : Bool) (_s : SvcStatus) : SvcStatus × Bool :=
  let s1 : SvcStatus := ⟨some .starting⟩
  if engineOk then (⟨none⟩, true) else (s1, false)

/-- `remove_service`: override REMOVING, `dock.remove_container`, then
`clean_status()`. -/
def remove_service (engineOk : Bool) (_s : SvcStatus) : SvcStatus × Bool :=
  let s1 : SvcStatus := ⟨some .removing⟩
  if engineOk then (⟨none⟩, true) else (s1, false)

/-- `restart_service`: override RESTARTING; `_do_restart_service` runs
`clean_status()` *before* `dock.restart_container` and again after it,
and only when `dock.get` found the container. -/
def restart_service (containerExists engineOk : Bool) (_s : SvcStatus) :
    SvcStatus × Bool :=
  let s1 : SvcStatus := ⟨some .restarting⟩
  if containerExists then
    let s2 : SvcStatus := ⟨none⟩
    if engineOk then (⟨none⟩, true) else (s2, false)
  else (s1, true)

/-! ### Registration-change detection (`check_regs_changed`,
`request_app_state`, `registrations`) -/

/-- `FRONTIER_SERVICE` from `band.constants` (value opaque to the
manager's logic). -/
def FRONTIER_SERVICE : String := "front"

/-- A service as `registrations()` sees it: name, `is_active()`, and its
registered methods. -/
structure SvcReg where
  name : String
  active : Bool
  methods : List String
  deriving DecidableEq, Repr

/-- `StateManager.registrations()`: the methods of every active record,
i.e. the `register` entry of the `{register: [methods]}` map. -/
def registrations (svcs : List SvcReg) : List String :=
  svcs.flatMap fun s => if s.active then s.methods else []

/-- One issued status probe: target service and the payload fields added
for the frontier service. -/
structure Probe where
  service : String
  register : Option (List String)
  state_hash : Option ℤ
  deriving DecidableEq, Repr

/-- The slice of manager state the registration check touches. -/
structure RegsState where
  registrations_hash : ℤ
  deriving DecidableEq, Repr

/-- `request_app_state(name)`: the RPC status probe; for the frontier
service the payload carries `registrations()` and
`state_hash = self.registrations_hash` (read at call time). -/
def request_app_state (st : RegsState) (regs : List String) (name : String) : Probe :=
  if name == FRONTIER_SERVICE then ⟨name, some regs, some st.registrations_hash⟩
  else ⟨name, none, none⟩

/-- `check_regs_changed()`: hash the current registrations
(`hash(ujson.dumps(...))` embedded as an abstract hash function); when it
differs from the stored hash, store it and issue one
`request_app_state(FRONTIER_SERVICE)`; returns the issued probes. -/
def check_regs_changed (hashFn : List String → ℤ) (st : RegsState)
    (regs : List String) : RegsState × List Probe :=
  let new_hash := hashFn regs
  if new_hash ≠ st.registrations_hash then
    let st' : RegsState := ⟨new_hash⟩
    (st', [request_app_state st' regs FRONTIER_SERVICE])
  else (st, [])

/-! ### Reconciler loop (`clean_worker`) -/

/-- Outcome of one body of `clean_worker`'s `while True`: the sleep +
`resolve_docstatus_all` + `check_regs_changed` either return or raise one
of the caught exception classes. -/
inductive TickOutcome
  | ok
  | connRefused
  | cancelled
  | otherExc
  deriving DecidableEq, Repr

/-- What the loop does next. -/
inductive LoopAction
  | continueLoop
  | exitLoop
  deriving DecidableEq, Repr

/-- One iteration of `clean_worker`: `ConnectionRefusedError` is logged
and the loop continues; `asyncio.CancelledError` is logged and the loop
`break`s; any other `Exception` is logged and the loop continues.  No
exception propagates out of the body. -/
def clean_worker_step : TickOutcome → LoopAction
  | .ok => .continueLoop
  | .connRefused => .continueLoop
  | .cancelled => .exitLoop
  | .otherExc => .continueLoop

/-! ## Theorems -/

lemma mem_foldl_insert (reserved : Finset ℕ) (ports : List ℕ) (p : ℕ) :
    p ∈ ports.foldl (fun acc q => insert q acc) reserved ↔ p ∈ reserved ∨ p ∈ ports := by
  induction ports generalizing reserved with
  | nil => simp
  | cons q rest ih =>
    simp only [List.foldl_cons, ih, Finset.mem_insert, List.mem_cons]
    tauto

lemma allocate_ports_eq (avail : List ℕ) (k : ℕ) :
    allocate_ports avail k =
      if k ≤ avail.length then .ok (avail.take k) else .error .keyError := by
  induction avail generalizing k with
  | nil =>
    cases k with
    | zero => simp [allocate_ports]
    | succ n => simp [allocate_ports]
  | cons p rest ih =>
    cases k with
    | zero => simp [allocate_ports]
    | succ n =>
      simp only [allocate_ports, ih, List.length_cons]
      by_cases h : n ≤ rest.length
      · rw [if_pos h, if_pos (by omega)]
        simp [Except.map, List.take]
      · rw [if_neg h, if_neg (by omega)]
        simp [Except.map]

/-- C1 (code bug): `free_ports` never removes a port.  Its loop body is
`self.reserved_ports.add(port)`, so after a complete `run_container`
attempt (hold at entry, free in the `finally` block) the port 8900 is
still in `reserved_ports`, and calling `free_ports` on a set already
holding 8900 leaves it reserved: the reservation set grows monotonically,
contradicting the claim that `free_ports` removes the given ports. -/
theorem free_ports_keeps_ports_reserved :
    run_attempt_reserved ∅ [8900] = {8900} ∧
    free_ports {8900} [8900] = {8900} ∧
    8900 ∈ free_ports {8900} [8900] := by
  refine ⟨?_, ?_, ?_⟩ <;> decide

/-- C2 (counterexample): with an empty available set and one declared
container port, the allocation step of `run_container` raises `KeyError`
(from `set.pop` on an empty set), not an error of kind
`ResourceExhausted`. -/
theorem allocate_ports_empty_raises_keyError :
    allocate_ports [] 1 = .error .keyError ∧
    PyErr.keyError ≠ PyErr.resourceExhausted := by
  refine ⟨rfl, by decide⟩

/-- C2 (amended): for a service declaring `k` container ports, if the
available set has fewer than `k` elements the allocation step of
`run_container` fails — by raising `KeyError` from `set.pop`, not with a
`ResourceExhausted` error kind — and otherwise it returns `k` distinct
ports drawn from the available set. -/
theorem allocate_ports_spec (avail : List ℕ) (k : ℕ) (hnd : avail.Nodup) :
    (avail.length < k → allocate_ports avail k = .error .keyError) ∧
    (k ≤ avail.length →
      ∃ l, allocate_ports avail k = .ok l ∧ l.length = k ∧ l.Nodup ∧
        ∀ p ∈ l, p ∈ avail) := by
  constructor
  · intro h
    rw [allocate_ports_eq, if_neg (by omega)]
  · intro h
    refine ⟨avail.take k, ?_, ?_, ?_, ?_⟩
    · rw [allocate_ports_eq, if_pos h]
    · simp [List.length_take, Nat.min_eq_left h]
    · exact hnd.sublist (List.take_sublist k avail)
    · intro p hp
      exact List.mem_of_mem_take hp

/-- C2 (witness): a pool of two distinct ports satisfies one declared
port; the allocation succeeds with one distinct port from the pool. -/
theorem allocate_ports_spec_witness :
    ∃ l, allocate_ports [8900, 8901] 1 = .ok l ∧ l.length = 1 ∧ l.Nodup ∧
      ∀ p ∈ l, p ∈ [8900, 8901] :=
  (allocate_ports_spec [8900, 8901] 1 (by decide)).2 (by decide)

/-- C3 (counterexample): `available_ports` calls `containers()` with no
status filter, so the ports of an `inband` container whose status is
`exited` (exists but is not running) **are** excluded: with the pool
`[8900, 8902)` and one exited container bound to 8900, port 8900 is not
available, while the spec's running-only subtraction would keep it. -/
theorem available_ports_excludes_stopped_container :
    8900 ∉ available_ports [⟨"x", "exited", true, [8900]⟩] 8900 8902 ∅ ∧
    8900 ∈ spec_available_ports [⟨"x", "exited", true, [8900]⟩] 8900 8902 ∅ ∧
    available_ports [⟨"x", "exited", true, [8900]⟩] 8900 8902 ∅ ≠
      spec_available_ports [⟨"x", "exited", true, [8900]⟩] 8900 8902 ∅ := by
  refine ⟨?_, ?_, ?_⟩ <;> decide

/-- C3 (amended): a port is available iff it lies in
`[start_port, end_port)`, is not bound by **any** listed `inband`
container (whatever its status — running or not), and is not currently
reserved. -/
theorem available_ports_mem (world : List Cont) (s e : ℕ) (R : Finset ℕ) (p : ℕ) :
    p ∈ available_ports world s e R ↔
      (s ≤ p ∧ p < e ∧ (∀ c ∈ world, c.inband → p ∉ c.ports) ∧ p ∉ R) := by
  simp only [available_ports, containers, Finset.mem_sdiff, Finset.mem_Ico,
    List.mem_toFinset, List.mem_flatMap, List.mem_filter, not_exists, not_and]
  constructor
  · rintro ⟨⟨⟨hs, he⟩, hused⟩, hR⟩
    refine ⟨hs, he, ?_, hR⟩
    intro c hc hib hp
    exact hused c ⟨hc, by simp [hib]⟩ hp
  · rintro ⟨hs, he, hused, hR⟩
    refine ⟨⟨⟨hs, he⟩, ?_⟩, hR⟩
    rintro c ⟨hc, hf⟩ hp
    simp only [Bool.and_eq_true, Bool.or_eq_true] at hf
    exact hused c hc (by simpa using hf) hp

/-- C3 (witness): with no containers and nothing reserved, 8900 is
available from the pool `[8900, 8902)`. -/
theorem available_ports_mem_witness :
    8900 ∈ available_ports [] 8900 8902 ∅ :=
  (available_ports_mem [] 8900 8902 ∅ 8900).mpr
    ⟨le_refl 8900, by omega, by simp, by simp⟩

lemma parseLogRecord_frame (t : ℕ) (cid name : String) (hdr pl : List ℕ)
    (hl : hdr.length = 8) :
    parseLogRecord t cid name (hdr ++ pl) =
      some ⟨t, cid, name, hdr.getD 0 0,
        beU32 (hdr.getD 4 0) (hdr.getD 5 0) (hdr.getD 6 0) (hdr.getD 7 0),
        utf8DecodeReplace pl⟩ := by
  have hg : ∀ i, i < 8 → (hdr ++ pl).getD i 0 = hdr.getD i 0 := by
    intro i hi
    unfold List.getD
    rw [List.get?_append (by omega)]
  have hdrop : (hdr ++ pl).drop 8 = pl := by
    rw [← hl]
    exact List.drop_left hdr pl
  unfold parseLogRecord
  rw [if_pos (by simp [hl])]
  rw [hg 0 (by omega), hg 4 (by omega), hg 5 (by omega), hg 6 (by omega),
    hg 7 (by omega), hdrop]

/-- C4: a log frame made of an 8-byte header — stream id `s` in byte 0,
big-endian 32-bit payload length in bytes 4–7 equal to the payload's
length — followed by its payload is published as one record carrying
stream id `s`, the length `N` from the header, and exactly the `N`
payload bytes decoded as UTF-8 with replacement (a total decoding that
never raises); two back-to-back frames yield two records in order. -/
theorem logs_reader_frames
    (clock : ℕ → ℕ) (cid name : String) (i s1 s2 : ℕ)
    (hdr1 pl1 hdr2 pl2 : List ℕ)
    (hl1 : hdr1.length = 8) (hs1 : hdr1.getD 0 0 = s1)
    (hN1 : beU32 (hdr1.getD 4 0) (hdr1.getD 5 0) (hdr1.getD 6 0) (hdr1.getD 7 0)
      = pl1.length)
    (hl2 : hdr2.length = 8) (hs2 : hdr2.getD 0 0 = s2)
    (hN2 : beU32 (hdr2.getD 4 0) (hdr2.getD 5 0) (hdr2.getD 6 0) (hdr2.getD 7 0)
      = pl2.length) :
    parseLogRecord (clock i) cid name (hdr1 ++ pl1) =
      some ⟨clock i, cid, name, s1, pl1.length, utf8DecodeReplace pl1⟩ ∧
    logs_reader clock cid name i [hdr1 ++ pl1, hdr2 ++ pl2] =
      [⟨clock i, cid, name, s1, pl1.length, utf8DecodeReplace pl1⟩,
       ⟨clock (i + 1), cid, name, s2, pl2.length, utf8DecodeReplace pl2⟩] := by
  have h1 := parseLogRecord_frame (clock i) cid name hdr1 pl1 hl1
  have h2 := parseLogRecord_frame (clock (i + 1)) cid name hdr2 pl2 hl2
  rw [hs1, hN1] at h1
  rw [hs2, hN2] at h2
  refine ⟨h1, ?_⟩
  simp [logs_reader, h1, h2]

/-- C4 (witness): the frame `01 00 00 00 00 00 00 05 "hello"` yields
`(stream=1, length=5, payload="hello")`; a second back-to-back frame with
stream 2 and the invalid byte `0xFF` yields a second record whose payload
is the replacement character — in order, without raising. -/
theorem logs_reader_frames_witness :
    logs_reader (fun i => 1000 * i) "cid0" "svc" 0
      [[1, 0, 0, 0, 0, 0, 0, 5] ++ [104, 101, 108, 108, 111],
       [2, 0, 0, 0, 0, 0, 0, 1] ++ [255]] =
      [⟨0, "cid0", "svc", 1, 5, ['h', 'e', 'l', 'l', 'o']⟩,
       ⟨1000, "cid0", "svc", 2, 1, ['�']⟩] := by
  have h := (logs_reader_frames (fun i => 1000 * i) "cid0" "svc" 0 1 2
    [1, 0, 0, 0, 0, 0, 0, 5] [104, 101, 108, 108, 111]
    [2, 0, 0, 0, 0, 0, 0, 1] [255]
    rfl rfl (by decide) rfl rfl (by decide)).2
  exact h.trans (by decide)

lemma mem_range'_iff {s n m : ℕ} : m ∈ List.range' s n ↔ s ≤ m ∧ m < s + n := by
  rw [List.mem_range']
  constructor
  · rintro ⟨i, hi, rfl⟩
    omega
  · rintro ⟨h1, h2⟩
    exact ⟨m - s, by omega, by omega⟩

lemma find?_first {α : Type} (p : α → Bool) :
    ∀ (l : List α) (a : α), l.find? p = some a →
      ∃ l1 l2, l = l1 ++ a :: l2 ∧ p a = true ∧ ∀ x ∈ l1, p x = false := by
  intro l
  induction l with
  | nil =>
    intro a h
    simp [List.find?] at h
  | cons b rest ih =>
    intro a h
    by_cases hb : p b = true
    · rw [List.find?_cons_of_pos _ hb] at h
      obtain rfl : b = a := by injection h
      exact ⟨[], rest, rfl, hb, by simp⟩
    · rw [List.find?_cons_of_neg _ hb] at h
      obtain ⟨l1, l2, heq, hpa, hall⟩ := ih a h
      refine ⟨b :: l1, l2, by simp [heq], hpa, ?_⟩
      intro x hx
      rcases List.mem_cons.mp hx with rfl | hx'
      · exact Bool.eq_false_iff.mpr hb
      · exact hall x hx'

lemma mem_space_walk (cols rows scol srow c r : ℕ) :
    (c, r) ∈ space_walk cols rows scol srow ↔
      ((scol ≤ c ∧ c < cols ∧ srow ≤ r ∧ r < rows) ∨ (c < scol ∧ r < srow)) := by
  simp only [space_walk, List.mem_append, List.mem_flatMap, List.mem_map,
    List.mem_range, Prod.mk.injEq]
  constructor
  · rintro (⟨r', hr', c', hc', rfl, rfl⟩ | ⟨r', hr', c', hc', rfl, rfl⟩)
    · rw [mem_range'_iff] at hr' hc'
      left
      omega
    · right
      omega
  · rintro (⟨h1, h2, h3, h4⟩ | ⟨h1, h2⟩)
    · exact Or.inl ⟨r, mem_range'_iff.mpr ⟨h3, by omega⟩, c,
        mem_range'_iff.mpr ⟨h1, by omega⟩, rfl, rfl⟩
    · exact Or.inr ⟨r, h2, c, h1, rfl, rfl⟩

lemma grid_block_length (scol w srow h : ℕ) :
    ((List.range' srow h).flatMap fun r =>
      (List.range' scol w).map fun c => (c, r)).length = h * w := by
  induction h generalizing srow with
  | zero => simp
  | succ h ih =>
    rw [List.range'_succ, List.flatMap_cons, List.length_append,
      List.length_map, List.length_range', ih]
    ring

lemma grid_block_getElem (scol w : ℕ) :
    ∀ (h srow i : ℕ), i < h * w →
      ((List.range' srow h).flatMap fun r =>
        (List.range' scol w).map fun c => (c, r))[i]? =
        some (scol + i % w, srow + i / w) := by
  intro h
  induction h with
  | zero =>
    intro srow i hi
    rw [Nat.zero_mul] at hi
    exact absurd hi (Nat.not_lt_zero i)
  | succ h ih =>
    intro srow i hi
    have hw : 0 < w := by
      rcases Nat.eq_zero_or_pos w with h0 | h0
      · rw [h0, Nat.mul_zero] at hi
        exact absurd hi (Nat.not_lt_zero i)
      · exact h0
    rw [List.range'_succ, List.flatMap_cons]
    by_cases hc : i < w
    · rw [List.getElem?_append_left (by simpa using hc), List.getElem?_map,
        List.getElem?_range' _ _ hc]
      simp [Nat.mod_eq_of_lt hc, Nat.div_eq_of_lt hc]
    · push_neg at hc
      rw [List.getElem?_append_right (by simpa using hc)]
      simp only [List.length_map, List.length_range']
      have hi' : i - w < h * w := by
        have hmul : (h + 1) * w = h * w + w := by ring
        omega
      rw [ih (srow + 1) (i - w) hi']
      have h1 : (i - w) % w = i % w := by
        conv_rhs => rw [show i = (i - w) + w by omega]
        rw [Nat.add_mod_right]
      have h2 : srow + 1 + (i - w) / w = srow + i / w := by
        have hdiv : i / w = (i - w) / w + 1 := by
          conv_lhs => rw [show i = (i - w) + w by omega]
          rw [Nat.add_div_right _ hw]
        omega
      rw [h1, h2]

lemma free_iff (state : List SvcPos) (name : String) (q : ℕ × ℕ) :
    (!(occupied state name).contains (posKey q.1 q.2)) = true ↔
      posKey q.1 q.2 ∉ occupied state name := by
  simp [List.elem_eq_mem]

/-- C5: `_allocate(name, col, row)` walks the candidate cells of the
first pass `(col..cols) × (row..rows)` in row-major order (cell `i` of
the walk is `(col + i % w, row + i / w)` with `w = cols - col`) and then
the back side `(0..col) × (0..row)`; a cell is walked iff it lies in one
of those two regions; the first walked cell not occupied by a record
other than the one being placed is returned, and when every walked cell
is occupied the result is `None` (`_allocate` only reads the state, so
the record's position is untouched). -/
theorem allocate_first_free (state : List SvcPos) (name : String)
    (cols rows scol srow : ℕ) :
    (∀ c r, (c, r) ∈ space_walk cols rows scol srow ↔
      ((scol ≤ c ∧ c < cols ∧ srow ≤ r ∧ r < rows) ∨ (c < scol ∧ r < srow))) ∧
    (∀ i, i < (rows - srow) * (cols - scol) →
      (space_walk cols rows scol srow)[i]? =
        some (scol + i % (cols - scol), srow + i / (cols - scol))) ∧
    (∀ i, i < srow * scol →
      (space_walk cols rows scol srow)[(rows - srow) * (cols - scol) + i]? =
        some (i % scol, i / scol)) ∧
    (allocate state name cols rows scol srow = none ↔
      ∀ p ∈ space_walk cols rows scol srow, posKey p.1 p.2 ∈ occupied state name) ∧
    (∀ c r, allocate state name cols rows scol srow = some (c, r) →
      posKey c r ∉ occupied state name ∧
      ∃ l1 l2, space_walk cols rows scol srow = l1 ++ (c, r) :: l2 ∧
        ∀ q ∈ l1, posKey q.1 q.2 ∈ occupied state name) := by
  refine ⟨fun c r => mem_space_walk cols rows scol srow c r, ?_, ?_, ?_, ?_⟩
  · intro i hi
    unfold space_walk
    rw [List.getElem?_append_left (by rw [grid_block_length]; exact hi)]
    exact grid_block_getElem scol (cols - scol) (rows - srow) srow i hi
  · intro i hi
    unfold space_walk
    rw [List.getElem?_append_right (by rw [grid_block_length]; omega)]
    rw [grid_block_length]
    have hsub : (rows - srow) * (cols - scol) + i - (rows - srow) * (cols - scol) = i := by
      omega
    rw [hsub]
    have := grid_block_getElem 0 scol srow 0 i hi
    simpa [List.range_eq_range'] using this
  · unfold allocate
    rw [List.find?_eq_none]
    constructor
    · intro h p hp
      have := h p hp
      simpa [free_iff] using this
    · intro h p hp
      simp only [free_iff]
      intro hcontra
      exact hcontra (h p hp)
  · intro c r h
    unfold allocate at h
    have hfree : posKey c r ∉ occupied state name := by
      have := List.find?_some h
      simpa [free_iff] using this
    obtain ⟨l1, l2, heq, _, hall⟩ := find?_first _ _ _ h
    refine ⟨hfree, l1, l2, heq, ?_⟩
    intro q hq
    have := hall q hq
    by_contra hnot
    rw [Bool.eq_false_iff] at this
    exact this ((free_iff state name q).mpr hnot)

/-- C5 (witness): with record A at cell `2x3` and B requested at
`{col 2, row 3}` on the 6×6 grid, the placer skips the occupied `2x3`
and returns the next cell of the row-major walk, `3x3` — Scenario 3 of
the spec. -/
theorem allocate_first_free_witness :
    posKey 3 3 ∉ occupied [⟨"A", some 2, some 3⟩] "B" ∧
    ∃ l1 l2, space_walk 6 6 2 3 = l1 ++ (3, 3) :: l2 ∧
      ∀ q ∈ l1, posKey q.1 q.2 ∈ occupied [⟨"A", some 2, some 3⟩] "B" :=
  (allocate_first_free [⟨"A", some 2, some 3⟩] "B" 6 6 2 3).2.2.2.2 3 3 (by decide)

/-- C10: for a requested cell with `col > 0` and `row > 0` the walk never
visits a cell whose column is below `col` while its row is at least
`row`, nor one whose column is at least `col` while its row is below
`row`; consequently there are occupancy states with free grid cells —
here `0x1` and `1x0` on the 6×6 grid — in which `_allocate` returns
`None`. -/
theorem space_walk_blind_spots :
    (∀ cols rows scol srow c r, 0 < scol → 0 < srow →
      ((c < scol ∧ srow ≤ r) ∨ (scol ≤ c ∧ r < srow)) →
      (c, r) ∉ space_walk cols rows scol srow) ∧
    allocate c10State "B" 6 6 1 1 = none ∧
    posKey 0 1 ∉ occupied c10State "B" ∧
    posKey 1 0 ∉ occupied c10State "B" := by
  refine ⟨?_, by decide, by decide, by decide⟩
  intro cols rows scol srow c r hc hr hreg hmem
  rw [mem_space_walk] at hmem
  omega

/-- C10 (witness): cell `(0, 1)` — column below the requested column 1,
row at least the requested row 1 — is never walked from `(1, 1)`. -/
theorem space_walk_blind_spots_witness :
    (0, 1) ∉ space_walk 6 6 1 1 :=
  space_walk_blind_spots.1 6 6 1 1 0 1 (by decide) (by decide)
    (Or.inl ⟨by decide, by decide⟩)

/-- C6 (counterexample): create the record with meta env `{K: meta}`
(first `get`), then call `get` again with per-call env `{X: 1}`: the
record's env becomes just `{X: 1}` — the meta layer is gone — while the
claimed three-layer merge would be `{K: meta, X: 1}`. -/
theorem get_env_present_drops_layers :
    get_env true (get_env false [] (some [("K", "meta")]) none none)
        (some [("K", "meta")]) none (some [("X", "1")]) = [("X", "1")] ∧
    merge_dicts [[("K", "meta")], [("X", "1")]] = [("K", "meta"), ("X", "1")] ∧
    ([("X", "1")] : List (String × String)) ≠ [("K", "meta"), ("X", "1")] := by
  refine ⟨by decide, by decide, by decide⟩

/-- C6 (amended): on the record-creating `get` call the returned env is
the merge of the image-meta env, the stored config env and the per-call
env, in that precedence with later layers winning; but on a call for a
name already present in the service table only the per-call env is
applied — the meta and config layers are not re-gathered and the
record's previous env is overwritten. -/
theorem get_env_spec (me ce pe prev : List (String × String)) :
    get_env false [] (some me) (some ce) (some pe) = merge_dicts [me, ce, pe] ∧
    get_env true prev (some me) (some ce) (some pe) = merge_dicts [pe] :=
  ⟨rfl, rfl⟩

/-- C7 (counterexample): `stop_service` sets the STOPPING override and
then awaits `dock.stop_container`; when that call raises, the exception
propagates — there is no `try/finally` — and the override set at the
beginning of the operation is still in place, not cleared. -/
theorem stop_failure_keeps_override :
    stop_service false ⟨none⟩ = (⟨some .stopping⟩, false) ∧
    some Override.stopping ≠ (none : Option Override) := by
  refine ⟨rfl, by decide⟩

/-- C7 (amended): `clean_status()` runs only after the engine call
returns, so on failure `run_service`, `stop_service`, `start_service`
and `remove_service` leave the override set at the beginning of the
operation in place; `restart_service` is the exception — it clears the
override *before* invoking the engine restart, so its failure leaves the
override cleared, while restarting an absent container leaves RESTARTING
set even though the operation returns. -/
theorem lifecycle_override_paths (s : SvcStatus)
    (resolveEff : Option Override → Option Override) :
    run_service false resolveEff s = (⟨some .starting⟩, false) ∧
    stop_service false s = (⟨some .stopping⟩, false) ∧
    start_service false s = (⟨some .starting⟩, false) ∧
    remove_service false s = (⟨some .removing⟩, false) ∧
    stop_service true s = (⟨none⟩, true) ∧
    start_service true s = (⟨none⟩, true) ∧
    remove_service true s = (⟨none⟩, true) ∧
    restart_service true false s = (⟨none⟩, false) ∧
    restart_service false true s = (⟨some .restarting⟩, true) :=
  ⟨rfl, rfl, rfl, rfl, rfl, rfl, rfl, rfl, rfl⟩

/-- C8: when the hash of the `{register: [methods]}` map over active
records differs from the stored `registrations_hash`, `check_regs_changed`
stores the new hash and issues exactly one status probe, to the frontier
service, whose payload carries the registrations and the new hash as
`state_hash`; when the hash is unchanged it issues no probe and leaves
the state as it was. -/
theorem check_regs_changed_spec (hashFn : List String → ℤ) (st : RegsState)
    (svcs : List SvcReg) :
    (hashFn (registrations svcs) ≠ st.registrations_hash →
      check_regs_changed hashFn st (registrations svcs) =
        (⟨hashFn (registrations svcs)⟩,
          [⟨FRONTIER_SERVICE, some (registrations svcs),
            some (hashFn (registrations svcs))⟩])) ∧
    (hashFn (registrations svcs) = st.registrations_hash →
      check_regs_changed hashFn st (registrations svcs) = (st, [])) := by
  constructor
  · intro h
    simp [check_regs_changed, request_app_state, h]
  · intro h
    simp [check_regs_changed, h]

/-- C8 (witness): one active service exposing `m1`, stored hash 0,
hash = length: the check stores hash 1 and issues exactly one frontier
probe carrying `register = [m1]` and `state_hash = 1`. -/
theorem check_regs_changed_spec_witness :
    check_regs_changed (fun l => (l.length : ℤ)) ⟨0⟩
        (registrations [⟨"a", true, ["m1"]⟩]) =
      (⟨1⟩, [⟨FRONTIER_SERVICE, some ["m1"], some 1⟩]) :=
  ((check_regs_changed_spec (fun l => (l.length : ℤ)) ⟨0⟩
    [⟨"a", true, ["m1"]⟩]).1 (by decide)).trans (by decide)

/-- C9 (counterexample): `clean_worker` reacts to
`asyncio.CancelledError` with a logged `break` — the loop *exits* on
cancellation instead of continuing, contrary to the claim that
cancellation is absorbed without exiting. -/
theorem clean_worker_cancel_exits :
    clean_worker_step .cancelled = .exitLoop ∧
    LoopAction.exitLoop ≠ LoopAction.continueLoop := by
  refine ⟨rfl, by decide⟩

/-- C9 (amended): the reconciler body never lets an exception propagate:
connection-refused from the config store is logged and the loop
continues at the next tick, any other exception is logged and the loop
continues, while cancellation is logged and `break`s out of the loop
(absorbed, but the worker exits). -/
theorem clean_worker_step_spec :
    clean_worker_step .ok = .continueLoop ∧
    clean_worker_step .connRefused = .continueLoop ∧
    clean_worker_step .otherExc = .continueLoop ∧
    clean_worker_step .cancelled = .exitLoop :=
  ⟨rfl, rfl, rfl, rfl⟩

end Director
